import Mathlib

/-
Verification of the per-frame reactive core of an interactive generative-art
installation (hand/face-driven 3D visual with spring physics, mood-based
palettes, reactive lighting and audio analysis).

The definitions below are a shallow embedding of the TypeScript source:
  - SpringValue / SpringValue.update   (ColorSlices: spring physics class)
  - classify / selectPalette           (ColorSlices useFrame: palette cascade)
  - blendLoop / paletteFrame           (ColorSlices useFrame: color blending loop)
  - computeTargets                     (ColorSlices useFrame: spring target assignment)
  - lightingTargets                    (Experience: ReactiveLighting useFrame)
  - decayStep / audioOffReset          (AudioManager: decay branch and OFF branch)
  - pinchOf / mkHandData / extractHands (HandTracker: predictWebcam hand logic)
Real-number arithmetic of the source is modelled over the rationals.
-/

/-- The exact value of the IEEE-754 double constant Math.PI. -/
def mathPI : ℚ := 884279719003555 / 281474976710656

namespace CONFIG

/-- CONFIG.sliceCount from constants.ts. -/
def sliceCount : ℕ := 60

/-- CONFIG.stackHeight from constants.ts. -/
def stackHeight : ℚ := 12

end CONFIG

/-- The spring physics state of the SpringValue class in ColorSlices. -/
structure SpringValue where
  value : ℚ
  target : ℚ
  velocity : ℚ
  stiffness : ℚ
  damping : ℚ
  deriving DecidableEq

/-- SpringValue.update from ColorSlices:
force = (target - value) * stiffness; velocity = velocity * damping + force;
value += velocity. -/
def SpringValue.update (s : SpringValue) : SpringValue :=
  let force := (s.target - s.value) * s.stiffness
  let velocity := s.velocity * s.damping + force
  { s with velocity := velocity, value := s.value + velocity }

/-- The FaceData record produced by HandTracker. -/
structure FaceData where
  present : Bool
  smile : ℚ
  mouthOpen : ℚ
  browDown : ℚ
  deriving DecidableEq

/-- The four mutually exclusive moods, one per palette in constants.ts. -/
inductive Mood where
  | JOY
  | SURPRISE
  | MOODY
  | DEFAULT
  deriving DecidableEq

namespace PALETTES

/-- PALETTES.DEFAULT from constants.ts. -/
def DEFAULT : List String := ["#D7CEA3", "#907826", "#A46719", "#CE3F0E", "#1A0C47"]

/-- PALETTES.JOY from constants.ts. -/
def JOY : List String := ["#FF9AA2", "#FFB7B2", "#FFDAC1", "#E2F0CB", "#B5EAD7"]

/-- PALETTES.SURPRISE from constants.ts. -/
def SURPRISE : List String := ["#00FF41", "#008F11", "#003B00", "#D0F0C0", "#39FF14"]

/-- PALETTES.MOODY from constants.ts. -/
def MOODY : List String := ["#001219", "#005f73", "#0a9396", "#94d2bd", "#e9d8a6"]

end PALETTES

/-- The mood selected by the palette cascade of ColorSlices useFrame
(step 1, DETERMINE TARGET PALETTE): present face, smile > 0.4 wins, then
mouthOpen > 0.2, then browDown > 0.3, else DEFAULT; absent face is DEFAULT. -/
def classify (face : FaceData) : Mood :=
  if face.present = true then
    if face.smile > 0.4 then Mood.JOY
    else if face.mouthOpen > 0.2 then Mood.SURPRISE
    else if face.browDown > 0.3 then Mood.MOODY
    else Mood.DEFAULT
  else Mood.DEFAULT

/-- The palette constant associated with each mood (constants.ts). -/
def paletteOf : Mood → List String
  | Mood.JOY => PALETTES.JOY
  | Mood.SURPRISE => PALETTES.SURPRISE
  | Mood.MOODY => PALETTES.MOODY
  | Mood.DEFAULT => PALETTES.DEFAULT

/-- The target palette chosen by ColorSlices useFrame from the face input:
the nextPalette variable after the cascade at lines 76-95. -/
def selectPalette (face : FaceData) : List String :=
  if face.present = true then
    if face.smile > 0.4 then PALETTES.JOY
    else if face.mouthOpen > 0.2 then PALETTES.SURPRISE
    else if face.browDown > 0.3 then PALETTES.MOODY
    else PALETTES.DEFAULT
  else PALETTES.DEFAULT

/-- The clamped pinch signal computed in HandTracker predictWebcam:
Math.min(Math.max((distance - 0.02) / 0.15, 0), 1). -/
def pinchOf (distance : ℚ) : ℚ :=
  min (max ((distance - 0.02) / 0.15) 0) 1

/-- HandData record produced by HandTracker for one hand. -/
structure HandData where
  present : Bool
  x : ℚ
  y : ℚ
  pinch : ℚ
  deriving DecidableEq

/-- TwoHandsData record: left and right hand slots. -/
structure TwoHandsData where
  left : HandData
  right : HandData
  deriving DecidableEq

/-- A 2D landmark as consumed by the hand logic (x, y in [0,1]). -/
structure Landmark where
  x : ℚ
  y : ℚ
  deriving DecidableEq

/-- One detected hand: its handedness category name and the two landmarks
(index tip = landmarks[8], thumb tip = landmarks[4]) used by the code. -/
structure DetectedHand where
  handedness : String
  indexTip : Landmark
  thumbTip : Landmark
  deriving DecidableEq

/-- The body of the hand loop in predictWebcam: distance, pinch, mirrored x,
flipped y.  The square root of the float library is passed in as a function. -/
def mkHandData (sqrt : ℚ → ℚ) (h : DetectedHand) : HandData :=
  let dx := h.indexTip.x - h.thumbTip.x
  let dy := h.indexTip.y - h.thumbTip.y
  let distance := sqrt (dx * dx + dy * dy)
  let pinch := pinchOf distance
  let x := (1 - h.indexTip.x) * 2 - 1
  let y := -(h.indexTip.y * 2 - 1)
  { present := true, x := x, y := y, pinch := pinch }

/-- One iteration of the hand loop: handedness "Left" writes the left slot,
any other label writes the right slot. -/
def handStep (sqrt : ℚ → ℚ) (acc : TwoHandsData) (h : DetectedHand) : TwoHandsData :=
  if h.handedness = "Left" then { acc with left := mkHandData sqrt h }
  else { acc with right := mkHandData sqrt h }

/-- The initial newData.hands value: both slots absent with zero fields. -/
def emptyHands : TwoHandsData :=
  { left := { present := false, x := 0, y := 0, pinch := 0 },
    right := { present := false, x := 0, y := 0, pinch := 0 } }

/-- The whole hand loop of predictWebcam over the list of detected hands. -/
def extractHands (sqrt : ℚ → ℚ) (hands : List DetectedHand) : TwoHandsData :=
  hands.foldl (handStep sqrt) emptyHands

/-- The four spring targets computed in ColorSlices useFrame (step 2). -/
structure Targets where
  height : ℚ
  twist : ℚ
  radius : ℚ
  chaos : ℚ
  deriving DecidableEq

/-- Target assignment of ColorSlices useFrame lines 99-131: defaults, then
the left-hand block, then the right-hand block. -/
def computeTargets (left right : HandData) : Targets :=
  { height :=
      if left.present = true then CONFIG.stackHeight * max 0.5 (1.5 + left.y)
      else CONFIG.stackHeight
    twist := if left.present = true then left.x * mathPI * 4 else 0
    radius := if right.present = true then 1.0 + right.y * 0.8 else 1.0
    chaos := if right.present = true then (right.x + 1.0) * 0.5 else 0 }

/-- An RGB color with rational channels, as manipulated by the color library. -/
structure Color where
  r : ℚ
  g : ℚ
  b : ℚ
  deriving DecidableEq

/-- Color.lerp of the rendering library: each channel moves toward the
target channel by the given alpha. -/
def colorLerp (c t : Color) (alpha : ℚ) : Color :=
  { r := c.r + (t.r - c.r) * alpha
    g := c.g + (t.g - c.g) * alpha
    b := c.b + (t.b - c.b) * alpha }

/-- The lerpSpeed constant of the color blending loop in ColorSlices. -/
def lerpSpeed : ℚ := 0.15

/-- Index i reduced to its palette slot i % 5. -/
def finMod5 (n : ℕ) : Fin 5 := ⟨n % 5, Nat.mod_lt n (by norm_num)⟩

/-- The color-blending part of the instance loop of ColorSlices useFrame:
for i = 0..n-1 in order, currentPalette[i % 5] is lerped toward
targetPalette[i % 5] at rate lerpSpeed. -/
def blendLoop (tgt : Fin 5 → Color) : ℕ → (Fin 5 → Color) → (Fin 5 → Color)
  | 0, cur => cur
  | n + 1, cur =>
    let prev := blendLoop tgt n cur
    Function.update prev (finMod5 n)
      (colorLerp (prev (finMod5 n)) (tgt (finMod5 n)) lerpSpeed)

/-- One whole frame of the color blending loop: the instance loop runs over
CONFIG.sliceCount instances. -/
def paletteFrame (cur tgt : Fin 5 → Color) : Fin 5 → Color :=
  blendLoop tgt CONFIG.sliceCount cur

/-- The lighting target tuple held by ReactiveLighting in Experience.tsx. -/
structure LightTargets where
  color1 : String
  color2 : String
  intensity : ℚ
  ambient : ℚ
  deriving DecidableEq

/-- The target-selection cascade of ReactiveLighting useFrame in
Experience.tsx lines 33-65. -/
def lightingTargets (face : FaceData) : LightTargets :=
  if face.present = true then
    if face.smile > 0.4 then
      { color1 := "#FF9AA2", color2 := "#FFDAC1", intensity := 150, ambient := 1.2 }
    else if face.mouthOpen > 0.2 then
      { color1 := "#39FF14", color2 := "#00FF41", intensity := 300, ambient := 0.1 }
    else if face.browDown > 0.3 then
      { color1 := "#001219", color2 := "#0a9396", intensity := 200, ambient := 0.05 }
    else
      { color1 := "#00ffff", color2 := "#ffaa00", intensity := 80, ambient := 0.5 }
  else
    { color1 := "#00ffff", color2 := "#ffaa00", intensity := 80, ambient := 0.5 }

/-- The per-mood lighting table implied by the two mirrored cascades. -/
def moodLightTable : Mood → LightTargets
  | Mood.JOY => { color1 := "#FF9AA2", color2 := "#FFDAC1", intensity := 150, ambient := 1.2 }
  | Mood.SURPRISE => { color1 := "#39FF14", color2 := "#00FF41", intensity := 300, ambient := 0.1 }
  | Mood.MOODY => { color1 := "#001219", color2 := "#0a9396", intensity := 200, ambient := 0.05 }
  | Mood.DEFAULT => { color1 := "#00ffff", color2 := "#ffaa00", intensity := 80, ambient := 0.5 }

/-- THREE.MathUtils.lerp as used by ReactiveLighting: x + (y - x) * t. -/
def mathUtilsLerp (x y t : ℚ) : ℚ := x + (y - x) * t

/-- One frame of the spotlight intensity update in ReactiveLighting:
lerp of the live intensity toward the target at lerpSpeed 0.05. -/
def intensityStep (live : ℚ) (face : FaceData) : ℚ :=
  mathUtilsLerp live (lightingTargets face).intensity 0.05

/-- The AudioData record of AudioManager. -/
structure AudioData where
  low : ℚ
  high : ℚ
  vol : ℚ
  deriving DecidableEq

/-- The inline lerp helper of AudioManager useFrame: a + (b - a) * t. -/
def jsLerp (a b t : ℚ) : ℚ := a + (b - a) * t

/-- The decay branch of AudioManager useFrame (no active analyser source):
every feature is lerped toward 0 at factor 0.1. -/
def decayStep (a : AudioData) : AudioData :=
  { low := jsLerp a.low 0 0.1
    high := jsLerp a.high 0 0.1
    vol := jsLerp a.vol 0 0.1 }

/-- The OFF branch of setupAudio in AudioManager: on switching the mode to
OFF the features are assigned { low: 0, high: 0, vol: 0 } outright. -/
def audioOffReset : AudioData := { low := 0, high := 0, vol := 0 }

/-- A spring with stiffness 3 and damping 1/2 sitting on a period-two orbit. -/
def springOscA : SpringValue :=
  { value := 1, target := 0, velocity := 2, stiffness := 3, damping := 1/2 }

/-- The other point of the period-two orbit of springOscA. -/
def springOscB : SpringValue :=
  { value := -1, target := 0, velocity := -2, stiffness := 3, damping := 1/2 }

/-- A spring with the stackHeight parameters of ColorSlices (0.05, 0.85),
released at rest at 0 with target 1. -/
def demoSpring : SpringValue :=
  { value := 0, target := 1, velocity := 0, stiffness := 0.05, damping := 0.85 }

/-- A present face with smile 0.6 and the other scores 0. -/
def joyFace : FaceData := { present := true, smile := 0.6, mouthOpen := 0, browDown := 0 }

/-- An all-black palette. -/
def blackPalette : Fin 5 → Color := fun _ => { r := 0, g := 0, b := 0 }

/-- An all-white palette. -/
def whitePalette : Fin 5 → Color := fun _ => { r := 1, g := 1, b := 1 }

/-- Two detected hands, one labelled Right and one with a malformed label. -/
def demoDetected : List DetectedHand :=
  [ { handedness := "Right", indexTip := { x := 0, y := 0 }, thumbTip := { x := 0, y := 0 } },
    { handedness := "Banana", indexTip := { x := 1/2, y := 1/2 }, thumbTip := { x := 1/2, y := 1/2 } } ]

/-- Concrete audio features used to instantiate the decay theorem. -/
def demoAudio : AudioData := { low := 1, high := 1/2, vol := 0 }

/-- The error of a spring state: value - target. -/
def springErr (s : SpringValue) : ℚ := s.value - s.target

/-- The previous-step error implied by a spring state: error - velocity. -/
def springPrev (s : SpringValue) : ℚ := s.value - s.target - s.velocity

/-- A Lyapunov quadratic form for the spring recurrence, contracted exactly
by the damping factor on each update. -/
def springE (s : SpringValue) : ℚ :=
  springErr s ^ 2
    - (1 + s.damping - s.stiffness) * springErr s * springPrev s
    + s.damping * springPrev s ^ 2

/-- The number of loop indices below n that land on palette slot j. -/
def slotCount (j : Fin 5) : ℕ → ℕ
  | 0 => 0
  | n + 1 => slotCount j n + (if finMod5 n = j then 1 else 0)

/-- C1: For every SpringState, one call to the Spring Integrator's update()
produces exactly force = (target - value) * stiffness, new velocity =
old velocity * damping + force, and new value = old value + new velocity,
with no clamping applied to any field. -/
theorem C1_spring_update_step (s : SpringValue) :
    s.update.velocity = s.velocity * s.damping + (s.target - s.value) * s.stiffness ∧
    s.update.value = s.value + s.update.velocity := by
  exact ⟨rfl, rfl⟩

/-- C9: update() changes only the value and velocity fields of a spring;
target, stiffness and damping are left unchanged for every starting state. -/
theorem C9_spring_update_frame (s : SpringValue) :
    s.update.target = s.target ∧
    s.update.stiffness = s.stiffness ∧
    s.update.damping = s.damping := by
  exact ⟨rfl, rfl, rfl⟩

/-- C2: Mood classification is a priority cascade evaluated top-to-bottom:
with a present face, smile > 0.4 gives JOY, else mouthOpen > 0.2 gives
SURPRISE, else browDown > 0.3 gives MOODY, else DEFAULT; an absent face
gives DEFAULT; and with smile, mouthOpen and browDown all 0.5 the result
is JOY (priority wins, not a blend). -/
theorem C2_mood_priority_cascade :
    (∀ f : FaceData, f.present = true → 0.4 < f.smile → classify f = Mood.JOY) ∧
    (∀ f : FaceData, f.present = true → f.smile ≤ 0.4 → 0.2 < f.mouthOpen →
      classify f = Mood.SURPRISE) ∧
    (∀ f : FaceData, f.present = true → f.smile ≤ 0.4 → f.mouthOpen ≤ 0.2 →
      0.3 < f.browDown → classify f = Mood.MOODY) ∧
    (∀ f : FaceData, f.present = true → f.smile ≤ 0.4 → f.mouthOpen ≤ 0.2 →
      f.browDown ≤ 0.3 → classify f = Mood.DEFAULT) ∧
    (∀ f : FaceData, f.present = false → classify f = Mood.DEFAULT) ∧
    classify { present := true, smile := 1/2, mouthOpen := 1/2, browDown := 1/2 } = Mood.JOY := by
  refine ⟨?_, ?_, ?_, ?_, ?_, by norm_num [classify]⟩
  · intro f hp hs
    simp [classify, hp, hs]
  · intro f hp hs hm
    simp [classify, hp, not_lt.mpr hs, hm]
  · intro f hp hs hm hb
    simp [classify, hp, not_lt.mpr hs, not_lt.mpr hm, hb]
  · intro f hp hs hm hb
    simp [classify, hp, not_lt.mpr hs, not_lt.mpr hm, not_lt.mpr hb]
  · intro f hp
    simp [classify, hp]

/-- Witness for C2: the cascade applied at concrete faces, one per branch. -/
theorem C2_mood_priority_cascade_witness :
    classify { present := true, smile := 1/2, mouthOpen := 1/2, browDown := 1/2 } = Mood.JOY ∧
    classify { present := true, smile := 0, mouthOpen := 1/2, browDown := 1/2 } = Mood.SURPRISE ∧
    classify { present := true, smile := 0, mouthOpen := 0, browDown := 1/2 } = Mood.MOODY ∧
    classify { present := true, smile := 0, mouthOpen := 0, browDown := 0 } = Mood.DEFAULT ∧
    classify { present := false, smile := 1, mouthOpen := 1, browDown := 1 } = Mood.DEFAULT := by
  refine ⟨?_, ?_, ?_, ?_, ?_⟩
  · exact C2_mood_priority_cascade.1 _ rfl (by norm_num)
  · exact C2_mood_priority_cascade.2.1 _ rfl (by norm_num) (by norm_num)
  · exact C2_mood_priority_cascade.2.2.1 _ rfl (by norm_num) (by norm_num) (by norm_num)
  · exact C2_mood_priority_cascade.2.2.2.1 _ rfl (by norm_num) (by norm_num) (by norm_num)
  · exact C2_mood_priority_cascade.2.2.2.2.1 _ rfl

/-- C6: pinch equals clamp((distance - 0.02) / 0.15, 0, 1): distance 0.02
gives 0, distance 0.17 gives 1, distance 0.095 gives exactly 1/2, and any
distance above 0.17 or below 0.02 clamps exactly to 1 or 0. -/
theorem C6_pinch_formula :
    pinchOf 0.02 = 0 ∧ pinchOf 0.17 = 1 ∧ pinchOf 0.095 = 1/2 ∧
    (∀ d : ℚ, 0.17 < d → pinchOf d = 1) ∧
    (∀ d : ℚ, d < 0.02 → pinchOf d = 0) := by
  refine ⟨by norm_num [pinchOf, max_def, min_def], by norm_num [pinchOf, max_def, min_def],
    by norm_num [pinchOf, max_def, min_def], ?_, ?_⟩
  · intro d hd
    have h15 : (0:ℚ) < 0.15 := by norm_num
    have h1 : (1:ℚ) ≤ (d - 0.02) / 0.15 := by
      rw [le_div_iff₀ h15]
      linarith
    have h0 : (0:ℚ) ≤ (d - 0.02) / 0.15 := le_trans zero_le_one h1
    simp only [pinchOf]
    rw [max_eq_left h0, min_eq_right h1]
  · intro d hd
    have h15 : (0:ℚ) < 0.15 := by norm_num
    have h0 : (d - 0.02) / 0.15 ≤ 0 := by
      rw [div_le_iff₀ h15]
      linarith
    simp only [pinchOf]
    rw [max_eq_right h0, min_eq_left zero_le_one]

/-- Witness for C6: the clamping branches applied at distances 1 and 0. -/
theorem C6_pinch_formula_witness :
    pinchOf 1 = 1 ∧ pinchOf 0 = 0 := by
  exact ⟨C6_pinch_formula.2.2.2.1 1 (by norm_num), C6_pinch_formula.2.2.2.2 0 (by norm_num)⟩

/-- C7: Spring targets from the hands: a present left hand sets the height
target to base * max(0.5, 1.5 + y) and the twist target to x * 4 * pi,
otherwise base and 0; a present right hand sets the radius target to
1 + y * 0.8 and the chaos target to (x + 1) * 0.5, otherwise 1 and 0.
Left hand at (0, 1) with right hand absent gives height target base * 2.5,
twist target 0 and radius target 1. -/
theorem C7_hand_targets :
    (∀ l r : HandData, l.present = true →
      (computeTargets l r).height = CONFIG.stackHeight * max 0.5 (1.5 + l.y) ∧
      (computeTargets l r).twist = l.x * mathPI * 4) ∧
    (∀ l r : HandData, l.present = false →
      (computeTargets l r).height = CONFIG.stackHeight ∧ (computeTargets l r).twist = 0) ∧
    (∀ l r : HandData, r.present = true →
      (computeTargets l r).radius = 1 + r.y * 0.8 ∧
      (computeTargets l r).chaos = (r.x + 1) * 0.5) ∧
    (∀ l r : HandData, r.present = false →
      (computeTargets l r).radius = 1 ∧ (computeTargets l r).chaos = 0) ∧
    ((computeTargets { present := true, x := 0, y := 1, pinch := 0 }
        { present := false, x := 0, y := 0, pinch := 0 }).height =
          CONFIG.stackHeight * (5/2) ∧
      (computeTargets { present := true, x := 0, y := 1, pinch := 0 }
        { present := false, x := 0, y := 0, pinch := 0 }).twist = 0 ∧
      (computeTargets { present := true, x := 0, y := 1, pinch := 0 }
        { present := false, x := 0, y := 0, pinch := 0 }).radius = 1) := by
  refine ⟨?_, ?_, ?_, ?_, ?_, ?_, ?_⟩
  · intro l r hp
    constructor <;> simp [computeTargets, hp]
  · intro l r hp
    constructor <;> simp [computeTargets, hp]
  · intro l r hp
    constructor <;> · simp [computeTargets, hp]; try norm_num
  · intro l r hp
    constructor <;> · simp [computeTargets, hp]; try norm_num
  · have hmax : max (0.5:ℚ) (1.5 + 1) = 5/2 := by
      rw [max_eq_right (by norm_num)]
      norm_num
    simp [computeTargets, hmax]
  · simp [computeTargets]
  · simp [computeTargets]
    norm_num

/-- Witness for C7: the target assignment applied with a present left hand at
(0, 1) and an absent right hand. -/
theorem C7_hand_targets_witness :
    (computeTargets { present := true, x := 0, y := 1, pinch := 0 }
        { present := false, x := 0, y := 0, pinch := 0 }).height =
          CONFIG.stackHeight * max 0.5 (1.5 + 1) ∧
    (computeTargets { present := true, x := 0, y := 1, pinch := 0 }
        { present := false, x := 0, y := 0, pinch := 0 }).radius = 1 := by
  exact ⟨(C7_hand_targets.1 _ _ rfl).1,
    (C7_hand_targets.2.2.2.1 _ _ rfl).1⟩

/-- C8: The Lighting Reactor's mood cascade agrees with the Palette Blender's:
the lighting targets factor exactly through the palette-side classifier via a
fixed per-mood table; a present face with smile 0.6 is JOY, selects the JOY
palette constants and the lighting targets color1 "#FF9AA2", intensity 150,
ambient 1.2, toward which the live intensity is lerped at rate 0.05. -/
theorem C8_lighting_palette_agreement :
    (∀ f : FaceData, lightingTargets f = moodLightTable (classify f)) ∧
    classify joyFace = Mood.JOY ∧
    selectPalette joyFace = PALETTES.JOY ∧
    lightingTargets joyFace =
      { color1 := "#FF9AA2", color2 := "#FFDAC1", intensity := 150, ambient := 1.2 } ∧
    (∀ i : ℚ, intensityStep i joyFace = i + (150 - i) * 0.05) := by
  refine ⟨?_, by norm_num [classify, joyFace], by norm_num [selectPalette, joyFace],
    by norm_num [lightingTargets, joyFace], ?_⟩
  · intro f
    simp only [lightingTargets, classify, moodLightTable]
    split_ifs <;> rfl
  · intro i
    norm_num [intensityStep, mathUtilsLerp, lightingTargets, joyFace]

/-- The right slot after the hand loop is the last detected hand whose label
is not exactly "Left"; earlier such hands are overwritten. -/
theorem handFold_right_lastWins (sq : ℚ → ℚ) (l : List DetectedHand) :
    ∀ acc : TwoHandsData,
      (List.foldl (handStep sq) acc l).right =
        ((l.filter fun h => h.handedness != "Left").getLast?).elim
          acc.right (mkHandData sq) := by
  induction l with
  | nil => intro acc; rfl
  | cons h t ih =>
    intro acc
    rw [List.foldl_cons, ih]
    by_cases hl : h.handedness = "Left"
    · have hf : (h.handedness != "Left") = false := by simp [hl]
      have hstep : (handStep sq acc h).right = acc.right := by simp [handStep, hl]
      simp only [List.filter_cons, hf, Bool.false_eq_true, if_false, hstep]
    · have hf : (h.handedness != "Left") = true := by simp [hl]
      have hstep : (handStep sq acc h).right = mkHandData sq h := by simp [handStep, hl]
      simp only [List.filter_cons, hf, if_true, hstep]
      rcases hft : (t.filter fun x => x.handedness != "Left") with _ | ⟨b, l2⟩
      · rw [hft]
        simp
      · rw [hft, List.getLast?_cons_cons]
        cases hbx : (b :: l2).getLast? with
        | none => simp at hbx
        | some x => simp

/-- The left slot after the hand loop is the last detected hand whose label
is exactly "Left"; earlier such hands are overwritten. -/
theorem handFold_left_lastWins (sq : ℚ → ℚ) (l : List DetectedHand) :
    ∀ acc : TwoHandsData,
      (List.foldl (handStep sq) acc l).left =
        ((l.filter fun h => h.handedness == "Left").getLast?).elim
          acc.left (mkHandData sq) := by
  induction l with
  | nil => intro acc; rfl
  | cons h t ih =>
    intro acc
    rw [List.foldl_cons, ih]
    by_cases hl : h.handedness = "Left"
    · have hf : (h.handedness == "Left") = true := by simp [hl]
      have hstep : (handStep sq acc h).left = mkHandData sq h := by simp [handStep, hl]
      simp only [List.filter_cons, hf, if_true, hstep]
      rcases hft : (t.filter fun x => x.handedness == "Left") with _ | ⟨b, l2⟩
      · rw [hft]
        simp
      · rw [hft, List.getLast?_cons_cons]
        cases hbx : (b :: l2).getLast? with
        | none => simp at hbx
        | some x => simp
    · have hf : (h.handedness == "Left") = false := by simp [hl]
      have hstep : (handStep sq acc h).left = acc.left := by simp [handStep, hl]
      simp only [List.filter_cons, hf, Bool.false_eq_true, if_false, hstep]

/-- C10: In hand extraction, every detected hand whose handedness label is
anything other than exactly "Left" is assigned to the right-hand slot with
present = true (never dropped), the "Left" hands are assigned to the left
slot, and when several hands map to the same slot the later one overwrites
the earlier (last wins). -/
theorem C10_hand_assignment :
    (∀ (sq : ℚ → ℚ) (hands : List DetectedHand),
      (extractHands sq hands).right =
        ((hands.filter fun h => h.handedness != "Left").getLast?).elim
          emptyHands.right (mkHandData sq)) ∧
    (∀ (sq : ℚ → ℚ) (hands : List DetectedHand),
      (extractHands sq hands).left =
        ((hands.filter fun h => h.handedness == "Left").getLast?).elim
          emptyHands.left (mkHandData sq)) ∧
    (∀ (sq : ℚ → ℚ) (hands : List DetectedHand) (h : DetectedHand),
      h ∈ hands → h.handedness ≠ "Left" →
      (extractHands sq hands).right.present = true) := by
  refine ⟨?_, ?_, ?_⟩
  · intro sq hands
    exact handFold_right_lastWins sq hands emptyHands
  · intro sq hands
    exact handFold_left_lastWins sq hands emptyHands
  · intro sq hands h hmem hlab
    show (List.foldl (handStep sq) emptyHands hands).right.present = true
    rw [handFold_right_lastWins sq hands emptyHands]
    have hmemf : h ∈ hands.filter fun x => x.handedness != "Left" :=
      List.mem_filter.mpr ⟨hmem, by simp [hlab]⟩
    have hne : (hands.filter fun x => x.handedness != "Left") ≠ [] :=
      List.ne_nil_of_mem hmemf
    cases hx : (hands.filter fun x => x.handedness != "Left").getLast? with
    | none => exact absurd (by simpa using hx) hne
    | some x => simp [mkHandData]

/-- Witness for C10: a list with a "Right" hand and a malformed "Banana"
hand; the malformed hand still lands in the right slot. -/
theorem C10_hand_assignment_witness :
    (extractHands id demoDetected).right.present = true := by
  exact C10_hand_assignment.2.2 id demoDetected
    { handedness := "Banana", indexTip := { x := 1/2, y := 1/2 },
      thumbTip := { x := 1/2, y := 1/2 } }
    (by simp [demoDetected]) (by simp)

/-- Each audio feature decays geometrically under the decay branch:
after n frames it is (9/10)^n times the start value. -/
theorem decay_iter (a : AudioData) (n : ℕ) :
    (decayStep^[n] a).low = (9/10)^n * a.low ∧
    (decayStep^[n] a).high = (9/10)^n * a.high ∧
    (decayStep^[n] a).vol = (9/10)^n * a.vol := by
  induction n with
  | zero => simp
  | succ n ih =>
    rw [Function.iterate_succ_apply']
    refine ⟨?_, ?_, ?_⟩
    · simp only [decayStep, jsLerp, ih.1, pow_succ]
      ring
    · simp only [decayStep, jsLerp, ih.2.1, pow_succ]
      ring
    · simp only [decayStep, jsLerp, ih.2.2, pow_succ]
      ring

/-- C4 counterexample: the claim "never snapping discontinuously to zero"
fails at the OFF-mode switch: setupAudio's OFF branch assigns exactly 0 to
each feature, while a lerp-0.1 step from low = 1 would give 9/10. -/
theorem C4_audio_decay_counterexample :
    audioOffReset.low = 0 ∧
    (decayStep { low := 1, high := 1, vol := 1 }).low = 9/10 ∧
    audioOffReset.low ≠ (decayStep { low := 1, high := 1, vol := 1 }).low := by
  refine ⟨rfl, ?_, ?_⟩
  · norm_num [decayStep, jsLerp]
  · norm_num [audioOffReset, decayStep, jsLerp]

/-- C4 (amended): On each frame with no active source the features are
lerped toward 0 at factor 0.1: starting from nonnegative values each field
never increases, stays nonnegative, never reaches 0 from a positive value
in one frame, and the iterates approach {0,0,0} below any positive bound;
the mode-switch handler for OFF, however, resets the features to exactly
{0,0,0} in a single step. -/
theorem C4_audio_decay_amended (a : AudioData)
    (hl : 0 ≤ a.low) (hh : 0 ≤ a.high) (hv : 0 ≤ a.vol) :
    ((decayStep a).low ≤ a.low ∧ (decayStep a).high ≤ a.high ∧
      (decayStep a).vol ≤ a.vol) ∧
    (0 ≤ (decayStep a).low ∧ 0 ≤ (decayStep a).high ∧ 0 ≤ (decayStep a).vol) ∧
    ((0 < a.low → 0 < (decayStep a).low) ∧ (0 < a.high → 0 < (decayStep a).high) ∧
      (0 < a.vol → 0 < (decayStep a).vol)) ∧
    (∀ ε : ℚ, 0 < ε → ∃ N : ℕ, ∀ n : ℕ, N ≤ n →
      (decayStep^[n] a).low < ε ∧ (decayStep^[n] a).high < ε ∧
      (decayStep^[n] a).vol < ε) ∧
    audioOffReset = { low := 0, high := 0, vol := 0 } := by
  refine ⟨⟨?_, ?_, ?_⟩, ⟨?_, ?_, ?_⟩, ⟨?_, ?_, ?_⟩, ?_, rfl⟩
  · simp only [decayStep, jsLerp]
    nlinarith
  · simp only [decayStep, jsLerp]
    nlinarith
  · simp only [decayStep, jsLerp]
    nlinarith
  · simp only [decayStep, jsLerp]
    nlinarith
  · simp only [decayStep, jsLerp]
    nlinarith
  · simp only [decayStep, jsLerp]
    nlinarith
  · intro h
    simp only [decayStep, jsLerp]
    nlinarith
  · intro h
    simp only [decayStep, jsLerp]
    nlinarith
  · intro h
    simp only [decayStep, jsLerp]
    nlinarith
  · intro ε hε
    set M : ℚ := max a.low (max a.high a.vol) with hM
    have hMl : a.low ≤ M := le_max_left _ _
    have hMh : a.high ≤ M := le_trans (le_max_left _ _) (le_max_right _ _)
    have hMv : a.vol ≤ M := le_trans (le_max_right _ _) (le_max_right _ _)
    have hM0 : 0 ≤ M := le_trans hl hMl
    obtain ⟨N, hN⟩ := exists_pow_lt_of_lt_one
      (show (0:ℚ) < ε / (M + 1) from div_pos hε (by linarith))
      (show (9/10 : ℚ) < 1 by norm_num)
    refine ⟨N, fun n hn => ?_⟩
    have hpow : ((9:ℚ)/10)^n ≤ (9/10)^N :=
      pow_le_pow_of_le_one (by norm_num) (by norm_num) hn
    have hpow0 : (0:ℚ) ≤ (9/10)^n := pow_nonneg (by norm_num) n
    have key : ∀ x : ℚ, 0 ≤ x → x ≤ M → (9/10)^n * x < ε := by
      intro x hx0 hxM
      have h1 : (9/10:ℚ)^n * x ≤ (9/10)^N * M := by
        apply mul_le_mul hpow hxM hx0
        exact pow_nonneg (by norm_num) N
      have h2 : (9/10:ℚ)^N * (M + 1) < ε := (lt_div_iff₀ (by linarith)).mp hN
      have h3 : (9/10:ℚ)^N * M ≤ (9/10)^N * (M + 1) :=
        mul_le_mul_of_nonneg_left (by linarith) (pow_nonneg (by norm_num) N)
      linarith
    obtain ⟨e1, e2, e3⟩ := decay_iter a n
    rw [e1, e2, e3]
    exact ⟨key a.low hl hMl, key a.high hh hMh, key a.vol hv hMv⟩

/-- Witness for C4 (amended): the decay theorem applied at concrete
nonnegative features (1, 1/2, 0). -/
theorem C4_audio_decay_amended_witness :
    0 ≤ demoAudio.low ∧ 0 ≤ demoAudio.high ∧ 0 ≤ demoAudio.vol ∧
    ((decayStep demoAudio).low ≤ demoAudio.low ∧
      (decayStep demoAudio).high ≤ demoAudio.high ∧
      (decayStep demoAudio).vol ≤ demoAudio.vol) := by
  refine ⟨by norm_num [demoAudio], by norm_num [demoAudio], by norm_num [demoAudio], ?_⟩
  exact (C4_audio_decay_amended demoAudio (by norm_num [demoAudio])
    (by norm_num [demoAudio]) (by norm_num [demoAudio])).1

/-- Each loop index below 60 lands on its slot exactly 12 times. -/
theorem slotCount_sixty : ∀ j : Fin 5, slotCount j CONFIG.sliceCount = 12 := by
  decide

/-- Characterization of the blending loop: slot j after n loop iterations
is the single-slot lerp applied once per loop index that lands on j. -/
theorem blendLoop_char (tgt cur : Fin 5 → Color) (n : ℕ) (j : Fin 5) :
    blendLoop tgt n cur j =
      (fun c => colorLerp c (tgt j) lerpSpeed)^[slotCount j n] (cur j) := by
  induction n with
  | zero => rfl
  | succ n ih =>
    by_cases hj : j = finMod5 n
    · subst hj
      simp only [blendLoop, Function.update_same, slotCount, eq_self_iff_true,
        if_true, Function.iterate_succ_apply']
      rw [ih]
    · simp only [blendLoop, Function.update_noteq hj, slotCount,
        if_neg (Ne.symm hj), Nat.add_zero]
      exact ih

/-- The red channel after m single-slot lerps toward t at rate 0.15. -/
theorem colorLerp_iter_r (t : Color) (m : ℕ) (c : Color) :
    ((fun x => colorLerp x t lerpSpeed)^[m] c).r =
      t.r - (t.r - c.r) * (17/20)^m := by
  induction m with
  | zero => simp
  | succ m ih =>
    rw [Function.iterate_succ_apply']
    set prev := (fun x => colorLerp x t lerpSpeed)^[m] c with hprev
    show (colorLerp prev t lerpSpeed).r = t.r - (t.r - c.r) * (17/20)^(m + 1)
    simp only [colorLerp, lerpSpeed]
    rw [ih, pow_succ]
    ring

/-- C3 counterexample: with 60 instances, one frame of the blending loop
lerps each slot 12 times, so from black toward white the red channel of
slot 0 is 1 - (17/20)^12, not the 0.15 a single lerp at rate 0.15 gives. -/
theorem C3_palette_blend_counterexample :
    (paletteFrame blackPalette whitePalette 0).r ≠
      (blackPalette 0).r + ((whitePalette 0).r - (blackPalette 0).r) * lerpSpeed := by
  have h := blendLoop_char whitePalette blackPalette CONFIG.sliceCount 0
  have hc : slotCount 0 CONFIG.sliceCount = 12 := slotCount_sixty 0
  have hr := colorLerp_iter_r (whitePalette 0) 12 (blackPalette 0)
  have : (paletteFrame blackPalette whitePalette 0).r =
      (whitePalette 0).r - ((whitePalette 0).r - (blackPalette 0).r) * (17/20)^12 := by
    rw [show paletteFrame blackPalette whitePalette 0 =
        blendLoop whitePalette CONFIG.sliceCount blackPalette 0 from rfl, h, hc, hr]
  rw [this]
  norm_num [blackPalette, whitePalette, lerpSpeed]

/-- C3 (amended): On each frame the blending loop lerps every one of the 5
palette slots toward its target once per instance assigned to that slot:
with sliceCount = 60 each slot is lerped 12 times at rate 0.15, so after
one frame each channel c becomes t - (t - c) * (17/20)^12 - the effective
per-frame rate depends on the instance count. -/
theorem C3_palette_blend_amended (cur tgt : Fin 5 → Color) (j : Fin 5) :
    paletteFrame cur tgt j =
      (fun c => colorLerp c (tgt j) lerpSpeed)^[12] (cur j) ∧
    (paletteFrame cur tgt j).r = (tgt j).r - ((tgt j).r - (cur j).r) * (17/20)^12 := by
  have h := blendLoop_char tgt cur CONFIG.sliceCount j
  have hc : slotCount j CONFIG.sliceCount = 12 := slotCount_sixty j
  constructor
  · rw [show paletteFrame cur tgt j = blendLoop tgt CONFIG.sliceCount cur j from rfl, h, hc]
  · rw [show paletteFrame cur tgt j = blendLoop tgt CONFIG.sliceCount cur j from rfl, h, hc,
      colorLerp_iter_r]

/-- update never changes target, stiffness or damping, across any number of
iterations. -/
theorem spring_params_iter (s : SpringValue) (n : ℕ) :
    (SpringValue.update^[n] s).target = s.target ∧
    (SpringValue.update^[n] s).stiffness = s.stiffness ∧
    (SpringValue.update^[n] s).damping = s.damping := by
  induction n with
  | zero => exact ⟨rfl, rfl, rfl⟩
  | succ n ih =>
    rw [Function.iterate_succ_apply']
    exact ⟨ih.1, ih.2.1, ih.2.2⟩

/-- The quadratic form springE contracts by exactly the damping factor on
each spring update. -/
theorem springE_step (s : SpringValue) :
    springE s.update = s.damping * springE s := by
  simp only [springE, springErr, springPrev, SpringValue.update]
  ring

/-- springE after n updates is damping^n times its initial value. -/
theorem springE_geom (s : SpringValue) (n : ℕ) :
    springE (SpringValue.update^[n] s) = s.damping^n * springE s := by
  induction n with
  | zero => simp
  | succ n ih =>
    rw [Function.iterate_succ_apply', springE_step, (spring_params_iter s n).2.2, ih,
      pow_succ]
    ring

/-- The error squared is controlled by springE: the defect of the quadratic
form is a perfect square. -/
theorem springE_lower (s : SpringValue) :
    (4 * s.damping - (1 + s.damping - s.stiffness)^2) * (springErr s)^2 ≤
      4 * s.damping * springE s := by
  have hsq := sq_nonneg ((1 + s.damping - s.stiffness) * springErr s
    - 2 * s.damping * springPrev s)
  simp only [springE] at *
  nlinarith [hsq]

/-- One update maps the period-two spring to its mirror state. -/
theorem spring_osc_flip :
    springOscA.update = springOscB ∧ springOscB.update = springOscA := by
  constructor
  · simp only [SpringValue.update, springOscA, springOscB, SpringValue.mk.injEq]
    norm_num
  · simp only [SpringValue.update, springOscA, springOscB, SpringValue.mk.injEq]
    norm_num

/-- The iterates of the period-two spring alternate between the two states. -/
theorem spring_osc_period (n : ℕ) :
    SpringValue.update^[n] springOscA = if n % 2 = 0 then springOscA else springOscB := by
  induction n with
  | zero => simp
  | succ n ih =>
    rw [Function.iterate_succ_apply', ih]
    by_cases h2 : n % 2 = 0
    · have h2' : (n + 1) % 2 = 1 := by omega
      simp [h2, h2', spring_osc_flip.1]
    · have h2' : (n + 1) % 2 = 0 := by omega
      simp [h2, h2', spring_osc_flip.2]

/-- C5 counterexample: with damping 1/2 (inside (0,1)) but stiffness 3, the
spring started at value 1, velocity 2, target 0 oscillates forever between
values 1 and -1, so iterating update never brings |value - target| below
1/2: convergence fails without a bound on the stiffness. -/
theorem C5_spring_convergence_counterexample :
    0 < springOscA.damping ∧ springOscA.damping < 1 ∧
    ¬ (∀ ε : ℚ, 0 < ε → ∃ N : ℕ, ∀ n : ℕ, N ≤ n →
        |(SpringValue.update^[n] springOscA).value - springOscA.target| < ε) := by
  refine ⟨by norm_num [springOscA], by norm_num [springOscA], ?_⟩
  intro hconv
  obtain ⟨N, hN⟩ := hconv (1/2) (by norm_num)
  have h := hN N le_rfl
  have hval : |(SpringValue.update^[N] springOscA).value - springOscA.target| = 1 := by
    rw [spring_osc_period]
    by_cases h2 : N % 2 = 0
    · simp [h2, springOscA]
    · simp [h2, springOscA, springOscB]
  rw [hval] at h
  norm_num at h

/-- C5 (amended): For every fixed target and damping d with 0 < d < 1, and
stiffness k inside the underdamped stability window
(1 + d - k)^2 < 4d (which holds for every spring configured in the
program), iterating update converges value to the target: for every
positive bound there is an iteration count past which |value - target|
stays below it. -/
theorem C5_spring_convergence_amended (s : SpringValue)
    (hd0 : 0 < s.damping) (hd1 : s.damping < 1)
    (hk : (1 + s.damping - s.stiffness)^2 < 4 * s.damping) :
    ∀ ε : ℚ, 0 < ε → ∃ N : ℕ, ∀ n : ℕ, N ≤ n →
      |(SpringValue.update^[n] s).value - s.target| < ε := by
  intro ε hε
  set D : ℚ := 4 * s.damping - (1 + s.damping - s.stiffness)^2 with hD
  have hDpos : 0 < D := by rw [hD]; linarith
  set C : ℚ := 4 * s.damping * springE s with hC
  have hE0 : 0 ≤ springE s := by
    have hl := springE_lower s
    nlinarith [sq_nonneg (springErr s)]
  have hCpos : 0 ≤ C := by
    rw [hC]
    exact mul_nonneg (by linarith) hE0
  have key : ∀ n : ℕ, D * (springErr (SpringValue.update^[n] s))^2 ≤ s.damping^n * C := by
    intro n
    have hl := springE_lower (SpringValue.update^[n] s)
    obtain ⟨-, hs2, hd2⟩ := spring_params_iter s n
    rw [hs2, hd2, springE_geom] at hl
    have hr : s.damping^n * C = 4 * s.damping * (s.damping^n * springE s) := by
      rw [hC]; ring
    rw [hr]
    exact hl
  obtain ⟨N, hN⟩ := exists_pow_lt_of_lt_one
    (show (0:ℚ) < (D * ε^2) / (C + 1) from
      div_pos (mul_pos hDpos (pow_pos hε 2)) (by linarith)) hd1
  refine ⟨N, fun n hn => ?_⟩
  have hpowmono : s.damping^n ≤ s.damping^N :=
    pow_le_pow_of_le_one (le_of_lt hd0) (le_of_lt hd1) hn
  have hpowN : 0 < s.damping^N := pow_pos hd0 N
  have h1 : D * (springErr (SpringValue.update^[n] s))^2 ≤ s.damping^N * C := by
    have hkey := key n
    have h2 : s.damping^n * C ≤ s.damping^N * C :=
      mul_le_mul_of_nonneg_right hpowmono hCpos
    linarith
  have h3 : s.damping^N * (C + 1) < D * ε^2 := (lt_div_iff₀ (by linarith)).mp hN
  have hr2 : s.damping^N * (C + 1) = s.damping^N * C + s.damping^N := by ring
  have h4 : s.damping^N * C < D * ε^2 := by linarith
  have h5 : D * (springErr (SpringValue.update^[n] s))^2 < D * ε^2 := lt_of_le_of_lt h1 h4
  have h6 : (springErr (SpringValue.update^[n] s))^2 < ε^2 :=
    lt_of_mul_lt_mul_left h5 (le_of_lt hDpos)
  have h7 : |springErr (SpringValue.update^[n] s)| < ε := by
    rw [abs_lt]
    constructor <;> nlinarith
  have ht := (spring_params_iter s n).1
  simpa [springErr, ht] using h7

/-- Witness for C5 (amended): the convergence theorem applied to the
program's stackHeight spring (stiffness 0.05, damping 0.85) with bound 1. -/
theorem C5_spring_convergence_amended_witness :
    0 < demoSpring.damping ∧ demoSpring.damping < 1 ∧
    (1 + demoSpring.damping - demoSpring.stiffness)^2 < 4 * demoSpring.damping ∧
    (0:ℚ) < 1 ∧
    ∃ N : ℕ, ∀ n : ℕ, N ≤ n →
      |(SpringValue.update^[n] demoSpring).value - demoSpring.target| < 1 := by
  refine ⟨by norm_num [demoSpring], by norm_num [demoSpring], by norm_num [demoSpring],
    by norm_num, ?_⟩
  exact C5_spring_convergence_amended demoSpring (by norm_num [demoSpring])
    (by norm_num [demoSpring]) (by norm_num [demoSpring]) 1 (by norm_num)
